import Mathlib

/-!
Verification of the two model-backend adapters of this repository:
the remote-cluster ("Horde") adapter in
`modeling/inference_models/horde.py` and the local-GPU ("ExLlama")
adapter in `modeling/inference_models/exllama/class.py`.

The embedding is shallow: the HTTP environment (responses the remote
cluster would return) is passed in explicitly as data, and the adapter
functions are translated into pure Lean functions over that data.
External libraries (requests, torch, the ExLlama compute provider, the
sentencepiece tokenizer) are represented either by explicit parameters
(abstract sampling/encoding functions) or, where a claim's truth
depends on their documented behaviour, by an executable model that is
described at its definition site.
-/

namespace Horde

/-- One entry of the `"generations"` list of a status response
(`horde.py`, lines 256-263): carries the generated text and the
responding worker's name and id. -/
structure HGeneration where
  text : String
  workerName : String
  workerId : String

/-- The parsed JSON body of a status response
(`GET {url}/api/v2/generate/text/status/{id}`). Every field is an
`Option` because the Python code reads the corresponding dict key
without checking for its presence (except `"done"`, which is checked);
a `none` models a missing key, whose read raises `KeyError`. -/
structure HStatusBody where
  done : Option Bool
  faulted : Option Bool
  waitTime : Option Int
  queuePosition : Option Int
  waiting : Option Int
  generations : Option (List HGeneration)

/-- The parsed JSON body of the submission response
(`POST {url}/api/v2/generate/text/async`); the code reads
`req_status["id"]` unconditionally (line 204). -/
structure HSubmitBody where
  id : Option String

/-- An HTTP exchange outcome as seen by the adapter: either the
connection failed (`requests.exceptions.ConnectionError`), or a
response arrived with a numeric status code, a raw body text
(`req.text`) and, when the body is valid JSON, its parsed form
(`req.json()`); `body = none` models a non-JSON body, whose parse
raises `JSONDecodeError`. -/
inductive HResp (β : Type) where
  | connError
  | resp (status : Nat) (raw : String) (body : Option β)

/-- Python exceptions that can escape the adapter, tagged by type.
`horde msg` is `HordeException(msg)` (horde.py line 21); `keyError k`
models a `KeyError` from reading a missing dict key `k`; `nameError n`
models a `NameError` from evaluating an unbound name `n`;
`jsonDecodeError` models an uncaught
`requests.exceptions.JSONDecodeError`. -/
inductive HErr where
  | horde (msg : String)
  | keyError (key : String)
  | nameError (n : String)
  | jsonDecodeError

/-- Externally observable events of the polling loop: a status GET
request, a telemetry record (the three `utils.koboldai_vars`
assignments of wait time, queue position and queue size, lines
243-245), and a 1-second `time.sleep` (line 249). -/
inductive HEvent where
  | statusGet
  | telemetry (waitTime queuePosition waiting : Int)
  | sleep

/-- Discriminator for status GET events. -/
def isStatusGet : HEvent → Bool
  | .statusGet => true
  | _ => false

/-- Message of the `HordeException` raised on a connection error, both
at submission (line 182) and while polling (line 219). -/
def msgConnUnavailable : String := "Horde unavailable. Please try again later"

/-- Message of the `HordeException` raised when submission returns
HTTP 503 (line 187). -/
def msg503 : String := "KoboldAI API Error: No available KoboldAI servers found in Horde to fulfil this request using the selected models or other properties."

/-- Message of the `HordeException` raised on any other non-success
status, both at submission (line 191) and while polling (line 224);
the response body is written to the log (`logger.error(req.text)`),
not into the message. -/
def msgGeneric : String := "KoboldAI API Error: Failed to get a standard reply from the Horde. Please check the console."

/-- Message of the `HordeException` raised when the submission body is
not JSON (line 200); it interpolates `req.text`. -/
def msgSubmitUnexpected (raw : String) : String :=
  "Unexpected message received from the Horde: '" ++ raw ++ "'"

/-- Message of the `HordeException` raised when a status body is not
JSON (line 231); it interpolates `req.text`. -/
def msgPollUnexpected (raw : String) : String :=
  "Unexpected message received from the KoboldAI Horde: '" ++ raw ++ "'"

/-- Message of the `HordeException` raised when a status body lacks
the `"done"` key (line 238). The Python code interpolates the parsed
dict `req_status`; the model stands in the raw response text, since
only the fact that a `HordeException` with some message is raised
matters to any claim. -/
def msgMissingDone (raw : String) : String :=
  "Unexpected response received from the KoboldAI Horde: '" ++ raw ++ "'"

/-- Message of the `HordeException` raised when the finished job is
marked faulted (line 254). -/
def msgFaulted : String := "Horde Text generation faulted! Please try again."

/-- Outcome of the polling loop (`while not finished`, lines 212-249):
it either reaches a response with `done` truthy (returning that final
parsed body), raises, or — in the model — runs out of scripted
responses while the job is still pending (the source would keep
polling forever). -/
inductive PollOut where
  | finished (finalBody : HStatusBody)
  | failed (e : HErr)
  | exhausted

/-- The polling loop of `model_backend._raw_generate` (horde.py lines
212-249), one recursive step per scripted status response. Each
iteration: GET the status endpoint (event `statusGet`; a connection
error raises `HordeException`), check `req.ok` (`status < 400`), parse
JSON, check the `"done"` key, read `finished = req_status["done"]`,
record the three telemetry values (reading `"wait_time"`,
`"queue_position"`, `"waiting"` unconditionally — a missing key is a
`KeyError`), and, when not finished, sleep one second and loop. -/
def poll_loop : List (HResp HStatusBody) → List HEvent × PollOut
  | [] => ([], .exhausted)
  | .connError :: _ => ([.statusGet], .failed (.horde msgConnUnavailable))
  | .resp status raw body :: rest =>
    if status < 400 then
      match body with
      | none => ([.statusGet], .failed (.horde (msgPollUnexpected raw)))
      | some b =>
        match b.done with
        | none => ([.statusGet], .failed (.horde (msgMissingDone raw)))
        | some d =>
          match b.waitTime with
          | none => ([.statusGet], .failed (.keyError "wait_time"))
          | some w =>
            match b.queuePosition with
            | none => ([.statusGet], .failed (.keyError "queue_position"))
            | some q =>
              match b.waiting with
              | none => ([.statusGet], .failed (.keyError "waiting"))
              | some z =>
                if d then
                  ([.statusGet, .telemetry w q z], .finished b)
                else
                  let r := poll_loop rest
                  (.statusGet :: .telemetry w q z :: .sleep :: r.1, r.2)
    else ([.statusGet], .failed (.horde msgGeneric))

/-- The `GenerationResult` constructed on success (lines 260-268):
`out_batches` holds one row per entry of the final `"generations"`
list, each row the local tokenizer's encoding of that generation's
text; the prompt is passed through; `is_whole_generation` is `True`. -/
structure HGenResult where
  outBatches : List (List Int)
  prompt : List Int
  isWholeGeneration : Bool
  singleLine : Bool

/-- The scripted network environment a run of `_raw_generate` will
see: the submission response and the successive status responses. -/
structure HEnv where
  submit : HResp HSubmitBody
  statuses : List (HResp HStatusBody)

/-- Outcome of a full `_raw_generate` run: a `GenerationResult`
together with the observable polling events, an escaped exception, or
(model only) exhaustion of the scripted status stream. -/
inductive GenOut where
  | result (r : HGenResult) (events : List HEvent)
  | failed (e : HErr) (events : List HEvent)
  | exhausted (events : List HEvent)

/-- `model_backend._raw_generate` of horde.py (lines 125-268), with
the local tokenizer's `encode` an explicit parameter. The request
payload (decoded prompt, sampling settings, model allow-list) does not
influence control flow and is not modelled. Submission: a connection
error raises `HordeException`; status 503 raises the distinct
no-eligible-workers `HordeException` (checked before `req.ok`); any
other non-success status raises the generic `HordeException`; a
non-JSON body raises a `HordeException` interpolating the body; then
`req_status["id"]` is read (a missing id is a `KeyError`). Then the
polling loop runs; on completion `req_status["faulted"]` is read (a
missing key is a `KeyError`), a truthy value raises the fault
`HordeException`, and otherwise the `"generations"` entries are each
re-encoded by the local tokenizer into one row of the result. -/
def raw_generate (encode : String → List Int) (prompt : List Int)
    (singleLine : Bool) (env : HEnv) : GenOut :=
  match env.submit with
  | .connError => .failed (.horde msgConnUnavailable) []
  | .resp status raw body =>
    if status = 503 then .failed (.horde msg503) []
    else if status < 400 then
      match body with
      | none => .failed (.horde (msgSubmitUnexpected raw)) []
      | some sb =>
        match sb.id with
        | none => .failed (.keyError "id") []
        | some _ =>
          match poll_loop env.statuses with
          | (evs, .failed e) => .failed e evs
          | (evs, .exhausted) => .exhausted evs
          | (evs, .finished b) =>
            match b.faulted with
            | none => .failed (.keyError "faulted") evs
            | some f =>
              if f then .failed (.horde msgFaulted) evs
              else
                match b.generations with
                | none => .failed (.keyError "generations") evs
                | some gens =>
                  .result { outBatches := gens.map (fun g => encode g.text),
                            prompt := prompt, isWholeGeneration := true,
                            singleLine := singleLine } evs
    else .failed (.horde msgGeneric) []

/-- One element of the model-status JSON array returned by
`GET {url}/api/v2/status/models?type=text`; the comprehension on
horde.py line 106 reads `en["name"]`, so a missing key is a
`KeyError`. -/
structure HEngine where
  name : Option String

/-- One entry of the dropdown list `get_cluster_models` builds:
`{"text": name, "value": name}` (line 106). -/
structure HMenuEntry where
  text : String
  value : String

/-- Model of evaluating the bare name `emit` in
`get_cluster_models` (horde.py lines 95 and 101). The name `emit` is
not bound anywhere in the module (no import or definition provides
it), so evaluating the call raises `NameError`; in consequence the two
degraded `return None` paths that follow it in the source are
unreachable. -/
def emitCall : Except HErr Unit := .error (.nameError "emit")

/-- `model_backend.get_cluster_models` (horde.py lines 87-116).
A connection error is caught; the handler logs and then calls the
unbound `emit` (which raises `NameError`) before its `return`. A
non-success status logs `req.json()` (raising `JSONDecodeError` when
the body is not JSON) and then likewise calls the unbound `emit`. On a
success status, `req.json()` raises on a non-JSON body; the list
comprehension re-raises a `KeyError` when an entry lacks `"name"`;
otherwise the list of `{"text", "value"}` entries is returned. The
`return none` arms transcribe the degraded returns of the source,
reachable only if the preceding `emitCall` did not raise. -/
def get_cluster_models (env : HResp (List HEngine)) :
    Except HErr (Option (List HMenuEntry)) :=
  match env with
  | .connError => do
      emitCall
      return none
  | .resp status _raw body =>
    if status < 400 then
      match body with
      | none => .error .jsonDecodeError
      | some engines =>
        if engines.all (fun e => e.name.isSome) then
          .ok (some (engines.map fun e =>
            { text := e.name.getD "", value := e.name.getD "" }))
        else .error (.keyError "name")
    else
      match body with
      | none => .error .jsonDecodeError
      | some _ => do
          emitCall
          return none

/-- The adapter state `model_backend.__init__` builds (horde.py lines
26-34): the default url and key, and the model list assigned from
`get_cluster_models()`. -/
structure HBackendState where
  url : String
  key : String
  models : Option (List HMenuEntry)

/-- `model_backend.__init__` (horde.py lines 26-34): construction
completes only if `get_cluster_models` returns; any exception it
raises propagates and construction fails. -/
def backend_init (env : HResp (List HEngine)) : Except HErr HBackendState := do
  let ms ← get_cluster_models env
  return { url := "https://horde.koboldai.net", key := "0000000000", models := ms }

end Horde

namespace Exl

/-- Result of the ExLlama `model_backend._raw_generate`
(`exllama/class.py` lines 270-320), together with the observable
global effects the claims are about: the generated suffix
(`generator.sequence` beyond the prompt, line 315), the final value of
the shared counter `utils.koboldai_vars.generated_tkns`, and the list
of arguments passed to `torch.manual_seed` during the call. -/
structure ElResult where
  outSuffix : List Int
  generatedTkns : Int
  seedCalls : List Int

/-- The sampling loop of `_raw_generate` (lines 290-308). The whole
per-step pipeline — `model.forward` on the most recent token, the
forced suppression of the BOS logit, the external warper pipeline,
softmax and `torch.multinomial` — lives in external libraries and
sibling modules and is abstracted as `sampleTok : Nat → Int`, giving
the token sampled at each 0-based step. Each iteration appends the
sampled token to the sequence (`gen_accept_token`), increments the
shared counter (line 306), and breaks immediately when the token
equals the EOS id (line 308). Arguments: steps remaining, current
step index, current sequence, current counter. -/
def el_loop (sampleTok : Nat → Int) (eos : Int) :
    Nat → Nat → List Int → Int → List Int × Int
  | 0, _, seq, cnt => (seq, cnt)
  | n + 1, i, seq, cnt =>
    let t := sampleTok i
    let seq' := seq ++ [t]
    let cnt' := cnt + 1
    if t = eos then (seq', cnt') else el_loop sampleTok eos n (i + 1) seq' cnt'

/-- `model_backend._raw_generate` of exllama/class.py (lines 270-320).
On entry, `if seed: torch.manual_seed(seed)` (lines 280-281) — by
Python truthiness both `None` and `0` skip the reseed. The prompt is
fed to the generator (`gen_begin_reuse`), the loop runs up to `maxNew`
steps, then the shared counter is unconditionally overwritten with
`max_new` (line 310) and the suffix past the prompt is returned
(line 315). `g0` is the counter's value on entry. -/
def el_raw_generate (sampleTok : Nat → Int) (eos : Int) (prompt : List Int)
    (maxNew : Nat) (seed : Option Int) (g0 : Int) : ElResult :=
  let seedCalls : List Int :=
    match seed with
    | some s => if s ≠ 0 then [s] else []
    | none => []
  let r := el_loop sampleTok eos maxNew 0 prompt g0
  { outSuffix := r.1.drop prompt.length
    generatedTkns := (maxNew : Int)
    seedCalls := seedCalls }

/-- The tokens the loop accepts: mirrors `el_loop`'s consumption but
without the carried sequence, for reasoning about list growth. -/
def taken (sampleTok : Nat → Int) (eos : Int) : Nat → Nat → List Int
  | 0, _ => []
  | n + 1, i =>
    let t := sampleTok i
    if t = eos then [t] else t :: taken sampleTok eos n (i + 1)

/-!
Executable model of the underlying sentencepiece-style tokenizer.

The tokenizer itself is a third-party library (`LlamaTokenizer` /
sentencepiece), external to this repository; the spec treats it as an
external collaborator and describes only the behaviour the wrappers in
`_post_load` rely on: a vocabulary of surface forms in which the
word-boundary marker `'▁'` stands for a leading space, an encoder that
first replaces spaces by `'▁'` and prepends one dummy `'▁'` ("insert a
leading space" default), and left-to-right longest-match segmentation
against the vocabulary. Texts are `List Char`; token ids are the
vocabulary indices; a character no vocabulary token matches is
consumed as an unknown token with id `vocab.length`.
-/

/-- Sentencepiece text preprocessing: every space becomes the
word-boundary marker `'▁'`. -/
def repl_space (s : List Char) : List Char :=
  s.map fun c => if c = ' ' then '▁' else c

/-- The longest vocabulary token (paired with its id, `i` being the id
of the list's head) that is a prefix of `s`; `none` when no nonempty
token matches. On equal lengths the earlier id wins. -/
def longest_match : List (List Char) → Nat → List Char → Option (Nat × List Char)
  | [], _, _ => none
  | t :: ts, i, s =>
    let rest := longest_match ts (i + 1) s
    if !t.isEmpty && t.isPrefixOf s then
      match rest with
      | none => some (i, t)
      | some (j, u) => if t.length < u.length then some (j, u) else some (i, t)
    else rest

/-- Fuelled greedy longest-match segmentation; with fuel at least the
input length the fuel never runs out (each step consumes at least one
character). -/
def greedyF (vocab : List (List Char)) : Nat → List Char → List Nat
  | 0, _ => []
  | _ + 1, [] => []
  | fuel + 1, c :: cs =>
    match longest_match vocab 0 (c :: cs) with
    | none => vocab.length :: greedyF vocab fuel cs
    | some (i, u) => i :: greedyF vocab fuel ((c :: cs).drop u.length)

/-- Greedy longest-match segmentation of a character list into
vocabulary token ids. -/
def greedy (vocab : List (List Char)) (s : List Char) : List Nat :=
  greedyF vocab s.length s

/-- The library encoder: preprocess (spaces to `'▁'`, one dummy
leading `'▁'`) and segment. `add_bos_token` is disabled by
`_post_load` (class.py line 133), so no BOS id is prepended. -/
def sp_encode (vocab : List (List Char)) (s : List Char) : List Nat :=
  greedy vocab ('▁' :: repl_space s)

/-- `encode_wrapper` installed by `_post_load` (class.py lines
190-199): for string input, prepend the anchor character `','` to the
text, encode, and drop the first resulting token id. -/
def encode_wrapper (vocab : List (List Char)) (s : List Char) : List Nat :=
  (sp_encode vocab (',' :: s)).tail

/-- The vocabulary condition the anchor workaround relies on: the
word-boundary marker occurs only at the start of a surface form, never
at a later position (spec glossary: the marker denotes that a token
*begins* a new word). -/
def no_internal_marker (vocab : List (List Char)) : Prop :=
  ∀ t ∈ vocab, '▁' ∉ t.drop 1

instance (vocab : List (List Char)) : Decidable (no_internal_marker vocab) :=
  List.decidableBAll _ vocab

/-- The set `has_prefix_space` built by `_post_load` (class.py lines
139-140): ids whose vocabulary surface form starts with the
word-boundary marker. -/
def has_prefix_space (vocab : List (List Char)) (t : Nat) : Bool :=
  match vocab[t]? with
  | some s => s.head? = some '▁'
  | none => false

/-- The two input shapes `decode_wrapper` distinguishes that the
claims are about: a bare Python `int` and a list of ids (a 0-dim or
1-dim tensor behaves like the corresponding case). -/
inductive TokenInput where
  | scalar (t : Nat)
  | seq (l : List Nat)

/-- `decode_wrapper` installed by `_post_load` (class.py lines
148-178), parametric over the library's original decode on id
sequences. A scalar id is wrapped into a one-element list before the
original decode is called (so the original is only ever called on
lists); `first` is the scalar itself or the head of the sequence; when
`first` is in `has_prefix_space` a single space is prepended to the
decoded text. -/
def decode_wrapper (origDecode : List Nat → List Char)
    (vocab : List (List Char)) : TokenInput → List Char
  | .scalar t =>
    let result := origDecode [t]
    if has_prefix_space vocab t then ' ' :: result else result
  | .seq l =>
    let result := origDecode l
    match l.head? with
    | some f => if has_prefix_space vocab f then ' ' :: result else result
    | none => result

/-- A small concrete vocabulary instantiating the tokenizer model: the
anchor token `"▁,"` (id 0, begins with the marker, and no other token
extends it), single characters, and the two overlapping word tokens
`"Bob"` (id 7) and `"Bobby"` (id 8). -/
def anchorVocab : List (List Char) :=
  [['▁', ','], ['▁'], [','], ['B'], ['o'], ['b'], ['y'],
   ['B', 'o', 'b'], ['B', 'o', 'b', 'b', 'y']]

theorem el_loop_seq (f : Nat → Int) (eos : Int) :
    ∀ (n i : Nat) (seq : List Int) (cnt : Int),
      (el_loop f eos n i seq cnt).1 = seq ++ taken f eos n i := by
  intro n
  induction n with
  | zero => intro i seq cnt; simp [el_loop, taken]
  | succ n ih =>
    intro i seq cnt
    by_cases h : f i = eos
    · simp [el_loop, taken, h]
    · simp only [el_loop, taken, if_neg h]
      rw [ih]
      simp

theorem taken_no_eos (f : Nat → Int) (eos : Int) :
    ∀ (n i : Nat), (∀ j, j < n → f (i + j) ≠ eos) →
      taken f eos n i = (List.range n).map (fun j => f (i + j)) := by
  intro n
  induction n with
  | zero => intro i _; simp [taken]
  | succ n ih =>
    intro i h
    have h0 : f i ≠ eos := by simpa using h 0 (Nat.succ_pos n)
    have hrest : ∀ j, j < n → f ((i + 1) + j) ≠ eos := by
      intro j hj
      have := h (j + 1) (by omega)
      simpa [Nat.add_assoc, Nat.add_comm 1 j] using this
    simp only [taken, if_neg h0]
    rw [ih (i + 1) hrest, List.range_succ_eq_map, List.map_cons, List.map_map]
    refine congrArg₂ _ (by simp) ?_
    apply List.map_congr_left
    intro a _
    simp [Nat.succ_eq_add_one]
    ring_nf

theorem taken_eos (f : Nat → Int) (eos : Int) :
    ∀ (k i n : Nat), k < n → f (i + k) = eos → (∀ j, j < k → f (i + j) ≠ eos) →
      taken f eos n i = ((List.range k).map (fun j => f (i + j))) ++ [eos] := by
  intro k
  induction k with
  | zero =>
    intro i n hn he _
    obtain ⟨m, rfl⟩ : ∃ m, n = m + 1 := ⟨n - 1, by omega⟩
    have h0 : f i = eos := by simpa using he
    simp [taken, h0]
  | succ k ih =>
    intro i n hn he hne
    obtain ⟨m, rfl⟩ : ∃ m, n = m + 1 := ⟨n - 1, by omega⟩
    have h0 : f i ≠ eos := by simpa using hne 0 (Nat.succ_pos k)
    have he' : f ((i + 1) + k) = eos := by
      have : i + 1 + k = i + (k + 1) := by omega
      rw [this]; exact he
    have hne' : ∀ j, j < k → f ((i + 1) + j) ≠ eos := by
      intro j hj
      have := hne (j + 1) (by omega)
      simpa [Nat.add_assoc, Nat.add_comm 1 j] using this
    simp only [taken, if_neg h0]
    rw [ih (i + 1) m (by omega) he' hne']
    rw [List.range_succ_eq_map, List.map_cons, List.map_map]
    simp only [Nat.add_zero, List.cons_append]
    refine congrArg₂ _ rfl (congrArg₂ _ ?_ rfl)
    apply List.map_congr_left
    intro a _
    simp [Nat.succ_eq_add_one]
    ring_nf

theorem taken_length_no_eos (f : Nat → Int) (eos : Int) (n : Nat)
    (h : ∀ j, j < n → f j ≠ eos) : (taken f eos n 0).length = n := by
  have := taken_no_eos f eos n 0 (by simpa using h)
  rw [this]
  simp

theorem longest_match_congr :
    ∀ (ts : List (List Char)) (i : Nat) (s s' : List Char),
      (∀ t ∈ ts, t.isPrefixOf s = t.isPrefixOf s') →
      longest_match ts i s = longest_match ts i s'
  | [], _, _, _, _ => rfl
  | t :: ts, i, s, s', h => by
    have ht := h t (List.mem_cons_self t ts)
    have hrest := longest_match_congr ts (i + 1) s s'
      (fun u hu => h u (List.mem_cons_of_mem _ hu))
    simp only [longest_match, ht, hrest]

theorem longest_match_some :
    ∀ (ts : List (List Char)) (i : Nat) (s : List Char) (j : Nat) (u : List Char),
      longest_match ts i s = some (j, u) → u ∈ ts ∧ u ≠ [] ∧ u <+: s
  | [], _, _, _, _, h => by simp [longest_match] at h
  | t :: ts, i, s, j, u, h => by
    simp only [longest_match] at h
    split at h
    case isTrue hc =>
      have hc1 : t ≠ [] := by
        have := (Bool.and_eq_true _ _).mp hc
        simpa [List.isEmpty_iff] using this.1
      have hc2 : t <+: s := by
        have := (Bool.and_eq_true _ _).mp hc
        exact List.isPrefixOf_iff_prefix.mp this.2
      cases hr : longest_match ts (i + 1) s with
      | none =>
        rw [hr] at h
        cases h
        exact ⟨List.mem_cons_self t ts, hc1, hc2⟩
      | some ju =>
        obtain ⟨j', u'⟩ := ju
        rw [hr] at h
        have h' : (if t.length < u'.length then some (j', u') else some (i, t))
            = some (j, u) := h
        have hrec := longest_match_some ts (i + 1) s j' u' hr
        by_cases hlen : t.length < u'.length
        · rw [if_pos hlen] at h'
          cases h'
          exact ⟨List.mem_cons_of_mem _ hrec.1, hrec.2.1, hrec.2.2⟩
        · rw [if_neg hlen] at h'
          cases h'
          exact ⟨List.mem_cons_self t ts, hc1, hc2⟩
    case isFalse =>
      have hrec := longest_match_some ts (i + 1) s j u h
      exact ⟨List.mem_cons_of_mem _ hrec.1, hrec.2.1, hrec.2.2⟩

theorem greedyF_fuel (vocab : List (List Char)) :
    ∀ (f1 : Nat) (s : List Char) (f2 : Nat),
      s.length ≤ f1 → s.length ≤ f2 →
      greedyF vocab f1 s = greedyF vocab f2 s
  | 0, s, f2, h1, _ => by
    have : s = [] := by
      cases s with
      | nil => rfl
      | cons c cs => simp at h1
    subst this
    cases f2 <;> rfl
  | f1 + 1, [], f2, _, _ => by cases f2 <;> rfl
  | f1 + 1, c :: cs, f2, h1, h2 => by
    obtain ⟨f2', rfl⟩ : ∃ m, f2 = m + 1 := ⟨f2 - 1, by simp at h2; omega⟩
    simp only [greedyF]
    cases hm : longest_match vocab 0 (c :: cs) with
    | none =>
      refine congrArg _ (greedyF_fuel vocab f1 cs f2' ?_ ?_) <;>
        · simp at h1 h2; omega
    | some iu =>
      obtain ⟨i, u⟩ := iu
      obtain ⟨_, hne, hpre⟩ := longest_match_some vocab 0 (c :: cs) i u hm
      have hu1 : 1 ≤ u.length := List.length_pos.mpr hne
      have hu2 : u.length ≤ cs.length + 1 := by simpa using hpre.length_le
      refine congrArg _ (greedyF_fuel vocab f1 _ f2' ?_ ?_) <;>
        · simp only [List.length_drop, List.length_cons] at *
          omega

theorem greedy_cons_none {vocab : List (List Char)} {c : Char} {cs : List Char}
    (h : longest_match vocab 0 (c :: cs) = none) :
    greedy vocab (c :: cs) = vocab.length :: greedy vocab cs := by
  unfold greedy
  simp only [List.length_cons, greedyF, h]

theorem greedy_cons_some {vocab : List (List Char)} {c : Char} {cs : List Char}
    {i : Nat} {u : List Char}
    (h : longest_match vocab 0 (c :: cs) = some (i, u)) :
    greedy vocab (c :: cs) = i :: greedy vocab ((c :: cs).drop u.length) := by
  obtain ⟨_, hne, hpre⟩ := longest_match_some vocab 0 (c :: cs) i u h
  have hu1 : 1 ≤ u.length := List.length_pos.mpr hne
  have hu2 : u.length ≤ cs.length + 1 := by simpa using hpre.length_le
  unfold greedy
  simp only [List.length_cons, greedyF, h]
  refine congrArg _ (greedyF_fuel vocab cs.length _ _ ?_ ?_) <;>
    · simp only [List.length_drop, List.length_cons]
      omega

theorem greedy_ne_nil {vocab : List (List Char)} {s : List Char} (h : s ≠ []) :
    greedy vocab s ≠ [] := by
  cases s with
  | nil => exact absurd rfl h
  | cons c cs =>
    cases hm : longest_match vocab 0 (c :: cs) with
    | none => rw [greedy_cons_none hm]; simp
    | some iu =>
      obtain ⟨i, u⟩ := iu
      rw [greedy_cons_some hm]; simp

theorem prefix_boundary {vocab : List (List Char)} {t w : List Char}
    (hC : no_internal_marker vocab) (ht : t ∈ vocab) (hw : w ≠ [])
    (v : List Char) :
    t.isPrefixOf (w ++ '▁' :: v) = t.isPrefixOf w := by
  rw [Bool.eq_iff_iff, List.isPrefixOf_iff_prefix, List.isPrefixOf_iff_prefix]
  constructor
  · intro h
    by_cases hl : t.length ≤ w.length
    · exact List.prefix_of_prefix_length_le h (List.prefix_append w _) hl
    · exfalso
      push_neg at hl
      have hwpos : 0 < w.length := List.length_pos.mpr hw
      have h1 : t = (w ++ '▁' :: v).take t.length := List.prefix_iff_eq_take.mp h
      have h2 : t[w.length]? = some '▁' := by
        have := congrArg (fun l => l[w.length]?) h1
        simp only at this
        rw [this, List.getElem?_take, if_pos hl,
          List.getElem?_append_right (Nat.le_refl _), Nat.sub_self]
        simp
      have h3 : (t.drop 1)[w.length - 1]? = some '▁' := by
        rw [List.getElem?_drop]
        have : 1 + (w.length - 1) = w.length := by omega
        rw [this]; exact h2
      exact hC t ht (List.getElem?_mem h3)
  · intro h
    exact h.trans (List.prefix_append w ('▁' :: v))

theorem longest_match_boundary {vocab : List (List Char)} {w : List Char}
    (hC : no_internal_marker vocab) (hw : w ≠ []) (v : List Char) :
    longest_match vocab 0 (w ++ '▁' :: v) = longest_match vocab 0 w :=
  longest_match_congr vocab 0 _ _ (fun t ht => prefix_boundary hC ht hw v)

theorem greedy_boundary {vocab : List (List Char)}
    (hC : no_internal_marker vocab) (n : Nat) :
    ∀ (w v : List Char), w.length ≤ n →
      greedy vocab (w ++ '▁' :: v) = greedy vocab w ++ greedy vocab ('▁' :: v) := by
  induction n with
  | zero =>
    intro w v h
    have : w = [] := by
      cases w with
      | nil => rfl
      | cons c cs => simp at h
    subst this
    simp [greedy, greedyF]
  | succ n ih =>
    intro w v h
    cases w with
    | nil => simp [greedy, greedyF]
    | cons c cs =>
      have hb := @longest_match_boundary vocab (c :: cs) hC (by simp) v
      cases hm : longest_match vocab 0 (c :: cs) with
      | none =>
        have hm2 : longest_match vocab 0 (c :: (cs ++ '▁' :: v)) = none := by
          rw [← List.cons_append, hb]; exact hm
        rw [List.cons_append, greedy_cons_none hm2, greedy_cons_none hm]
        rw [ih cs v (by simp at h; omega)]
        simp
      | some iu =>
        obtain ⟨i, u⟩ := iu
        obtain ⟨_, hne, hpre⟩ := longest_match_some vocab 0 (c :: cs) i u hm
        have hu1 : 1 ≤ u.length := List.length_pos.mpr hne
        have hu2 : u.length ≤ cs.length + 1 := by simpa using hpre.length_le
        have hm2 : longest_match vocab 0 (c :: (cs ++ '▁' :: v)) = some (i, u) := by
          rw [← List.cons_append, hb]; exact hm
        have hdrop : (c :: (cs ++ '▁' :: v)).drop u.length
            = ((c :: cs).drop u.length) ++ '▁' :: v := by
          rw [← List.cons_append,
            List.drop_append_of_le_length (by simpa using hu2)]
        rw [List.cons_append, greedy_cons_some hm2, hdrop,
          ih ((c :: cs).drop u.length) v
            (by simp only [List.length_drop, List.length_cons] at *; omega),
          greedy_cons_some hm]
        simp

theorem greedy_split {vocab : List (List Char)}
    (hC : no_internal_marker vocab) (w v : List Char) :
    greedy vocab (w ++ '▁' :: v) = greedy vocab w ++ greedy vocab ('▁' :: v) :=
  greedy_boundary hC w.length w v (Nat.le_refl _)

theorem tail_append_left {α : Type} {l1 : List α} (l2 : List α) (h : l1 ≠ []) :
    (l1 ++ l2).tail = l1.tail ++ l2 := by
  cases l1 with
  | nil => exact absurd rfl h
  | cons a t => rfl

theorem el_raw_generate_suffix (sampleTok : Nat → Int) (eos : Int)
    (prompt : List Int) (maxNew : Nat) (seed : Option Int) (g0 : Int) :
    (el_raw_generate sampleTok eos prompt maxNew seed g0).outSuffix
      = taken sampleTok eos maxNew 0 := by
  show ((el_loop sampleTok eos maxNew 0 prompt g0).1).drop prompt.length = _
  rw [el_loop_seq]
  exact List.drop_left _ _

end Exl

/-- C2: for every call to the local-GPU adapter's `_raw_generate` with
requested count `max_new`, on exit the shared generated-token counter
`utils.koboldai_vars.generated_tkns` equals `max_new`, regardless of
whether generation terminated early on the end-of-sequence token
(class.py line 310 overwrites the counter unconditionally). -/
theorem c2_generated_tkns_equals_max_new (sampleTok : Nat → Int) (eos : Int)
    (prompt : List Int) (maxNew : Nat) (seed : Option Int) (g0 : Int) :
    (Exl.el_raw_generate sampleTok eos prompt maxNew seed g0).generatedTkns
      = (maxNew : Int) := rfl

/-- C3, counterexample: the claim says a supplied seed of `0` re-seeds
the shared torch generator, but `_raw_generate` guards the reseed with
Python truthiness (`if seed:`, class.py line 280), so with
`seed = 0` the call records no `torch.manual_seed` invocation at
all. -/
theorem c3_seed_zero_counterexample :
    (Exl.el_raw_generate (fun _ => 1) 2 [5] 1 (some 0) 0).seedCalls = [] := rfl

/-- C3, amended: for every call to the local-GPU adapter's
`_raw_generate` in which a nonzero seed is supplied, the shared torch
random generator is re-seeded with that value before sampling begins;
a supplied seed of `0` (like an absent seed) is skipped by the
truthiness test `if seed:`. -/
theorem c3_nonzero_seed_reseeds (sampleTok : Nat → Int) (eos : Int)
    (prompt : List Int) (maxNew : Nat) (s : Int) (g0 : Int) (hs : s ≠ 0) :
    (Exl.el_raw_generate sampleTok eos prompt maxNew (some s) g0).seedCalls
      = [s] := by
  simp [Exl.el_raw_generate, hs]

/-- C3 witness: a concrete nonzero seed is recorded as a
`torch.manual_seed` call. -/
theorem c3_nonzero_seed_reseeds_witness :
    (7 : Int) ≠ 0
    ∧ (Exl.el_raw_generate (fun _ => 1) 2 [5] 3 (some 7) 0).seedCalls = [7] :=
  ⟨by decide, c3_nonzero_seed_reseeds (fun _ => 1) 2 [5] 3 7 0 (by decide)⟩

/-- C5: for the local-GPU adapter's `_raw_generate` with
`max_new = N`: if the end-of-sequence token is never sampled, the
returned generated suffix has length exactly `N`; if it is first
sampled at (1-based) step `k < N`, the loop stops immediately at step
`k` — the EOS token is the last accepted token — and the suffix has
length `k`. -/
theorem c5_suffix_lengths (sampleTok : Nat → Int) (eos : Int)
    (prompt : List Int) (maxNew : Nat) (seed : Option Int) (g0 : Int) :
    ((∀ j, j < maxNew → sampleTok j ≠ eos) →
      (Exl.el_raw_generate sampleTok eos prompt maxNew seed g0).outSuffix.length
        = maxNew)
    ∧ (∀ k, 1 ≤ k → k < maxNew → sampleTok (k - 1) = eos →
        (∀ j, j < k - 1 → sampleTok j ≠ eos) →
        (Exl.el_raw_generate sampleTok eos prompt maxNew seed g0).outSuffix.length
          = k
        ∧ (Exl.el_raw_generate sampleTok eos prompt maxNew seed g0).outSuffix.getLast?
          = some eos) := by
  constructor
  · intro h
    rw [Exl.el_raw_generate_suffix]
    exact Exl.taken_length_no_eos sampleTok eos maxNew h
  · intro k hk1 hk2 he hne
    have ht := Exl.taken_eos sampleTok eos (k - 1) 0 maxNew (by omega)
      (by simpa using he) (fun j hj => by simpa using hne j hj)
    rw [Exl.el_raw_generate_suffix, ht]
    constructor
    · simp
      omega
    · exact List.getLast?_concat _

/-- C5 witness: with a sampler that never emits EOS the suffix length
is `max_new` = 3; with a sampler whose second token is EOS and
`max_new` = 5, the suffix has length 2 and ends in EOS. -/
theorem c5_suffix_lengths_witness :
    (Exl.el_raw_generate (fun _ => 1) 9 [5] 3 none 0).outSuffix.length = 3
    ∧ ((Exl.el_raw_generate (fun j => if j = 1 then 9 else 1) 9 [5] 5 none 0).outSuffix.length = 2
        ∧ (Exl.el_raw_generate (fun j => if j = 1 then 9 else 1) 9 [5] 5 none 0).outSuffix.getLast?
          = some 9) :=
  ⟨(c5_suffix_lengths (fun _ => 1) 9 [5] 3 none 0).1 (by decide),
   (c5_suffix_lengths (fun j => if j = 1 then 9 else 1) 9 [5] 5 none 0).2 2
     (by decide) (by decide) (by decide) (by decide)⟩

/-- C9: after `_post_load` installs the decode wrapper, decoding the
scalar `t` and decoding the one-element sequence `[t]` produce the
identical string for every token id `t` and every underlying decode
function, and when the token's surface form begins with the
word-boundary marker the output is the underlying decode of `[t]`
with a single leading space prepended. -/
theorem c9_decode_scalar_matches_sequence (origDecode : List Nat → List Char)
    (vocab : List (List Char)) (t : Nat) :
    Exl.decode_wrapper origDecode vocab (.scalar t)
      = Exl.decode_wrapper origDecode vocab (.seq [t])
    ∧ (Exl.has_prefix_space vocab t = true →
        Exl.decode_wrapper origDecode vocab (.seq [t])
          = ' ' :: origDecode [t]) := by
  constructor
  · rfl
  · intro h
    simp [Exl.decode_wrapper, h]

/-- C9 witness: token id 0 of the concrete vocabulary starts with the
word-boundary marker and its one-element decode gains a single leading
space. -/
theorem c9_decode_scalar_matches_sequence_witness :
    Exl.has_prefix_space Exl.anchorVocab 0 = true
    ∧ Exl.decode_wrapper (fun _ => [',']) Exl.anchorVocab (.seq [0])
        = ' ' :: [','] :=
  ⟨by decide,
   (c9_decode_scalar_matches_sequence (fun _ => [',']) Exl.anchorVocab 0).2
     (by decide)⟩

/-- C4, counterexample: with the anchor-token workaround in place,
`encode(s1 + s2)` need not begin with `encode(s1)`: under the modelled
longest-match tokenizer with a vocabulary containing both `"Bob"` and
`"Bobby"`, encoding `"Bob"` yields the `"Bob"` token while encoding
`"Bob" ++ "by"` yields the single `"Bobby"` token, so the former is
not a prefix of the latter. The prepended anchor only neutralises the
leading dummy space; it cannot prevent a token merge across the
`s1`/`s2` boundary. -/
theorem c4_prefix_stable_counterexample :
    (Exl.encode_wrapper Exl.anchorVocab ['B', 'o', 'b']).isPrefixOf
      (Exl.encode_wrapper Exl.anchorVocab (['B', 'o', 'b'] ++ ['b', 'y']))
      = false := by decide

/-- C4, amended: the wrapped encode is prefix-stable across a word
boundary: for every vocabulary in which the word-boundary marker
occurs only token-initially, and all strings `s1`, `s2` with `s2`
beginning with a space, `encode(s1 ++ s2)` begins with `encode(s1)` as
a prefix. (For `s2` continuing mid-word the property fails, as the
counterexample shows.) -/
theorem c4_prefix_stable_at_word_boundary (vocab : List (List Char))
    (s1 s2 : List Char) (hC : Exl.no_internal_marker vocab)
    (h2 : s2.head? = some ' ') :
    (Exl.encode_wrapper vocab s1).isPrefixOf
      (Exl.encode_wrapper vocab (s1 ++ s2)) = true := by
  obtain ⟨t, rfl⟩ : ∃ t, s2 = ' ' :: t := by
    cases s2 with
    | nil => simp at h2
    | cons c cs =>
      simp at h2
      exact ⟨cs, by rw [h2]⟩
  rw [List.isPrefixOf_iff_prefix]
  have hpre : ('▁' :: Exl.repl_space (',' :: (s1 ++ ' ' :: t)))
      = ('▁' :: ',' :: Exl.repl_space s1) ++ '▁' :: Exl.repl_space t := by
    simp [Exl.repl_space]
  have key : Exl.encode_wrapper vocab (s1 ++ ' ' :: t)
      = Exl.encode_wrapper vocab s1
        ++ Exl.greedy vocab ('▁' :: Exl.repl_space t) := by
    unfold Exl.encode_wrapper Exl.sp_encode
    rw [hpre, Exl.greedy_split hC,
      Exl.tail_append_left _ (Exl.greedy_ne_nil (by simp))]
    have hcomma : Exl.repl_space (',' :: s1) = ',' :: Exl.repl_space s1 := by
      simp [Exl.repl_space]
    rw [hcomma]
  rw [key]
  exact List.prefix_append _ _

/-- C4 witness: the boundary-stable form at a concrete vocabulary and
concrete strings (`"Bob"`, `" and"`). -/
theorem c4_prefix_stable_at_word_boundary_witness :
    Exl.no_internal_marker Exl.anchorVocab
    ∧ (Exl.encode_wrapper Exl.anchorVocab ['B', 'o', 'b']).isPrefixOf
        (Exl.encode_wrapper Exl.anchorVocab
          (['B', 'o', 'b'] ++ [' ', 'a', 'n', 'd'])) = true :=
  ⟨by decide,
   c4_prefix_stable_at_word_boundary Exl.anchorVocab ['B', 'o', 'b']
     [' ', 'a', 'n', 'd'] (by decide) (by decide)⟩


/-- C1: for the remote-cluster adapter's `_raw_generate`, when the
status endpoint reports `done = false` for the first three polls and
then `done = true, faulted = false`, the client issues exactly four
status GET requests, sleeps exactly once between consecutive polls and
never after the final one, and returns a `GenerationResult` with one
row per entry of the final response's `generations` list, each row the
local tokenizer's encoding of that generation's text. Status bodies
are `⟨done, faulted, wait_time, queue_position, waiting,
generations⟩`. -/
theorem c1_polls_four_then_one_row_per_generation
    (encode : String → List Int) (prompt : List Int) (singleLine : Bool)
    (jobId r0 r1 r2 r3 r4 : String)
    (w1 q1 z1 w2 q2 z2 w3 q3 z3 w4 q4 z4 : Int)
    (f1 f2 f3 : Option Bool) (g1 g2 g3 : Option (List Horde.HGeneration))
    (gens : List Horde.HGeneration) :
    Horde.raw_generate encode prompt singleLine
      ⟨.resp 202 r0 (some ⟨some jobId⟩),
       [.resp 200 r1 (some ⟨some false, f1, some w1, some q1, some z1, g1⟩),
        .resp 200 r2 (some ⟨some false, f2, some w2, some q2, some z2, g2⟩),
        .resp 200 r3 (some ⟨some false, f3, some w3, some q3, some z3, g3⟩),
        .resp 200 r4 (some ⟨some true, some false, some w4, some q4, some z4,
          some gens⟩)]⟩
      = .result
          ⟨gens.map (fun g => encode g.text), prompt, true, singleLine⟩
          [.statusGet, .telemetry w1 q1 z1, .sleep,
           .statusGet, .telemetry w2 q2 z2, .sleep,
           .statusGet, .telemetry w3 q3 z3, .sleep,
           .statusGet, .telemetry w4 q4 z4]
    ∧ (([.statusGet, .telemetry w1 q1 z1, .sleep,
         .statusGet, .telemetry w2 q2 z2, .sleep,
         .statusGet, .telemetry w3 q3 z3, .sleep,
         .statusGet, .telemetry w4 q4 z4] : List Horde.HEvent).filter
           Horde.isStatusGet).length = 4
    ∧ (gens.map (fun g => encode g.text)).length = gens.length := by
  refine ⟨rfl, rfl, ?_⟩
  simp

/-- C6: for the remote-cluster adapter's model discovery at
construction, every network failure, non-success HTTP status, and
non-JSON response body aborts `__init__` with an exception, so the
adapter never completes construction in a silently degraded state.
(The degraded `return None` arms written in the source are unreachable
because both failure handlers first call the module-unbound name
`emit`, which raises `NameError`; a non-JSON body raises
`JSONDecodeError` either at the handler's `req.json()` log call or at
the success path's parse.) -/
theorem c6_init_failures_abort_construction :
    Horde.backend_init .connError = .error (.nameError "emit")
    ∧ (∀ (s : Nat) (raw : String),
        Horde.backend_init (.resp s raw none) = .error .jsonDecodeError)
    ∧ (∀ (s : Nat) (raw : String) (es : List Horde.HEngine), 400 ≤ s →
        Horde.backend_init (.resp s raw (some es))
          = .error (.nameError "emit")) := by
  refine ⟨rfl, ?_, ?_⟩
  · intro s raw
    have hg : Horde.get_cluster_models (.resp s raw none)
        = .error .jsonDecodeError := by
      simp only [Horde.get_cluster_models]
      by_cases h : s < 400
      · rw [if_pos h]
      · rw [if_neg h]
    simp only [Horde.backend_init, hg]
    rfl
  · intro s raw es h
    have hg : Horde.get_cluster_models (.resp s raw (some es))
        = .error (.nameError "emit") := by
      simp only [Horde.get_cluster_models]
      rw [if_neg (by omega : ¬ s < 400)]
      rfl
    simp only [Horde.backend_init, hg]
    rfl

/-- C6 witness: a concrete non-success status (500) with a JSON body
aborts construction. -/
theorem c6_init_failures_abort_construction_witness :
    400 ≤ 500
    ∧ Horde.backend_init (.resp 500 "oops" (some []))
        = .error (.nameError "emit") :=
  ⟨by decide,
   c6_init_failures_abort_construction.2.2 500 "oops" [] (by decide)⟩

/-- C7: for remote-cluster job submission, HTTP 503 raises the
distinct "no eligible workers" `HordeException`, while any other
non-success status (e.g. 500) takes the generic service-error path
with a different message (the response body is written to the log for
diagnosis, per horde.py line 194). -/
theorem c7_503_distinct_from_generic
    (encode : String → List Int) (prompt : List Int) (singleLine : Bool)
    (raw : String) (body : Option Horde.HSubmitBody)
    (sts : List (Horde.HResp Horde.HStatusBody)) :
    Horde.raw_generate encode prompt singleLine ⟨.resp 503 raw body, sts⟩
      = .failed (.horde Horde.msg503) []
    ∧ Horde.raw_generate encode prompt singleLine ⟨.resp 500 raw body, sts⟩
      = .failed (.horde Horde.msgGeneric) []
    ∧ Horde.msg503 ≠ Horde.msgGeneric
    ∧ Horde.msg503
      = "KoboldAI API Error: No available KoboldAI servers found in Horde to fulfil this request using the selected models or other properties." := by
  refine ⟨rfl, rfl, ?_, rfl⟩
  decide

/-- C8: whenever a status response has `done = true` and
`faulted = true`, `_raw_generate` raises the job-fault
`HordeException` — whose message differs from both transport-error
messages — and produces no `GenerationResult`. -/
theorem c8_faulted_job_raises
    (encode : String → List Int) (prompt : List Int) (singleLine : Bool)
    (jobId r0 r1 : String) (w q z : Int)
    (g : Option (List Horde.HGeneration)) :
    Horde.raw_generate encode prompt singleLine
      ⟨.resp 202 r0 (some ⟨some jobId⟩),
       [.resp 200 r1 (some ⟨some true, some true, some w, some q, some z, g⟩)]⟩
      = .failed (.horde Horde.msgFaulted) [.statusGet, .telemetry w q z]
    ∧ Horde.msgFaulted ≠ Horde.msgConnUnavailable
    ∧ Horde.msgFaulted ≠ Horde.msgGeneric := by
  refine ⟨rfl, ?_, ?_⟩ <;> decide

/-- C10: every error deliberately raised by the remote-cluster job
protocol — connection failure on submit or poll, HTTP 503, any other
non-success status on submit or poll, a non-JSON body on submit or
poll, a status body missing `"done"`, and a faulted job — is a
`HordeException` (the single constructor `HErr.horde`), so the
failure category is carried only in the message text, never in the
exception type. -/
theorem c10_all_protocol_errors_are_horde_exceptions
    (encode : String → List Int) (prompt : List Int) (sl : Bool) :
    (∀ sts, Horde.raw_generate encode prompt sl ⟨.connError, sts⟩
      = .failed (.horde Horde.msgConnUnavailable) [])
    ∧ (∀ (jobId r0 : String), Horde.raw_generate encode prompt sl
        ⟨.resp 202 r0 (some ⟨some jobId⟩), [.connError]⟩
      = .failed (.horde Horde.msgConnUnavailable) [.statusGet])
    ∧ (∀ (r : String) (b : Option Horde.HSubmitBody) sts,
        Horde.raw_generate encode prompt sl ⟨.resp 503 r b, sts⟩
        = .failed (.horde Horde.msg503) [])
    ∧ (∀ (r : String) (b : Option Horde.HSubmitBody) sts,
        Horde.raw_generate encode prompt sl ⟨.resp 500 r b, sts⟩
        = .failed (.horde Horde.msgGeneric) [])
    ∧ (∀ (jobId r0 r1 : String) (b : Option Horde.HStatusBody),
        Horde.raw_generate encode prompt sl
          ⟨.resp 202 r0 (some ⟨some jobId⟩), [.resp 500 r1 b]⟩
        = .failed (.horde Horde.msgGeneric) [.statusGet])
    ∧ (∀ (r : String) sts, Horde.raw_generate encode prompt sl
        ⟨.resp 200 r none, sts⟩
      = .failed (.horde (Horde.msgSubmitUnexpected r)) [])
    ∧ (∀ (jobId r0 r1 : String), Horde.raw_generate encode prompt sl
        ⟨.resp 202 r0 (some ⟨some jobId⟩), [.resp 200 r1 none]⟩
      = .failed (.horde (Horde.msgPollUnexpected r1)) [.statusGet])
    ∧ (∀ (jobId r0 r1 : String) (f : Option Bool) (wt qp wa : Option Int)
        (g : Option (List Horde.HGeneration)),
        Horde.raw_generate encode prompt sl
          ⟨.resp 202 r0 (some ⟨some jobId⟩),
           [.resp 200 r1 (some ⟨none, f, wt, qp, wa, g⟩)]⟩
        = .failed (.horde (Horde.msgMissingDone r1)) [.statusGet])
    ∧ (∀ (jobId r0 r1 : String) (w q z : Int)
        (g : Option (List Horde.HGeneration)),
        Horde.raw_generate encode prompt sl
          ⟨.resp 202 r0 (some ⟨some jobId⟩),
           [.resp 200 r1 (some ⟨some true, some true, some w, some q, some z,
             g⟩)]⟩
        = .failed (.horde Horde.msgFaulted) [.statusGet, .telemetry w q z]) :=
  ⟨fun _ => rfl, fun _ _ => rfl, fun _ _ _ => rfl, fun _ _ _ => rfl,
   fun _ _ _ _ => rfl, fun _ _ => rfl, fun _ _ _ => rfl,
   fun _ _ _ _ _ _ _ _ => rfl, fun _ _ _ _ _ _ _ => rfl⟩
